import Mathlib

/-
Shallow embedding of the Groove music player.

Sources embedded here:
  * src/js/app.js            — the primary MusicPlayer class (synchronous playSong)
  * src/unnamed/part_001     — a variant MusicPlayer whose async playSong fetches and
                               caches the audio blob (single-slot temp cache)

The embedding models the class fields that the verified claims observe
(catalog, filtered view, liked songs, playlists, current song / playlist /
index, the audio element's src, and the localStorage keys written by
saveData / savePlaybackState).  DOM rendering, CSS classes, media-session
metadata and wake locks are pure UI plumbing with no effect on these fields
and are not modeled.  Platform primitives used by the code (JSON.parse,
String.prototype.trim / toLowerCase, Number.prototype.toString,
URL.createObjectURL) are modeled by explicit Lean functions below.
-/

namespace Groove

/-- A song record as loaded from songs.json (spec §3: Song). -/
structure Song where
  id : String
  title : String
  artist : String
  coverArt : String
  audioSrc : String
deriving DecidableEq, Repr

/-- A playlist as created by createPlaylist (app.js 1110-1114): the `songs`
field holds song ids (the spec calls this field songIds). -/
structure Playlist where
  id : String
  name : String
  songs : List String
deriving DecidableEq, Repr

/-- The playback snapshot persisted under the localStorage key
groovePlaybackState by savePlaybackState (app.js 405-417).  The numeric
fields (seconds, volume) are modeled as integers; no verified claim depends
on fractional values. -/
structure PlaybackState where
  songId : String
  currentTime : Int
  isPlaying : Bool
  timestamp : Int
  volume : Int
deriving DecidableEq, Repr

/- ----------------------------------------------------------------------
Models of the JS platform string primitives used by the source.
---------------------------------------------------------------------- -/

/-- Model of the whitespace class used by String.prototype.trim
(space, tab, line feed, carriage return, form feed, vertical tab,
no-break space, BOM). -/
def isJsWhitespace (c : Char) : Bool :=
  c == ' ' || c == '\t' || c == '\n' || c == '\r' ||
  c == Char.ofNat 12 || c == Char.ofNat 11 || c == Char.ofNat 160 ||
  c == Char.ofNat 65279

/-- Model of JS String.prototype.trim: drop leading and trailing whitespace. -/
def jsTrim (s : String) : String :=
  String.mk (((s.data.dropWhile isJsWhitespace).reverse.dropWhile isJsWhitespace).reverse)

/-- Model of JS String.prototype.toLowerCase (per-character lowering; the
source only compares ASCII playlist names case-insensitively). -/
def jsToLower (s : String) : String :=
  String.mk (s.data.map Char.toLower)

/-- The decimal digit character for d (0 ↦ '0', …, 9 ↦ '9'). -/
def digitChar (d : Nat) : Char := Char.ofNat (48 + d)

/-- Model of JS Number.prototype.toString for the non-negative integers
produced by Date.now(): the usual decimal representation. -/
def natToString (n : Nat) : String :=
  if n = 0 then "0"
  else String.mk (((Nat.digits 10 n).map digitChar).reverse)

/- ----------------------------------------------------------------------
Model of the platform JSON.parse primitive (ECMA-404 grammar), used by the
MusicPlayer constructor (app.js 5-10) and by resumePlaybackIfNeeded.
`none` models the exception JSON.parse throws on malformed input.
---------------------------------------------------------------------- -/

/-- A parsed JSON value.  Number literals are kept as their lexeme; no
verified claim inspects numeric values of stored JSON. -/
inductive Json where
  | nullV : Json
  | boolV : Bool → Json
  | numV : String → Json
  | strV : String → Json
  | arrV : List Json → Json
  | objV : List (String × Json) → Json

/-- JSON insignificant whitespace. -/
def isWs (c : Char) : Bool := c == ' ' || c == '\t' || c == '\n' || c == '\r'

/-- Drops leading JSON whitespace. -/
def skipWs : List Char → List Char
  | [] => []
  | c :: cs => if isWs c then skipWs cs else c :: cs

/-- Consumes an expected literal character sequence. -/
def expectLit : List Char → List Char → Option (List Char)
  | [], cs => some cs
  | _ :: _, [] => none
  | p :: ps, c :: cs => if c == p then expectLit ps cs else none

/-- Splits off a maximal run of decimal digits. -/
def takeDigits : List Char → List Char × List Char
  | [] => ([], [])
  | c :: cs =>
    if c.isDigit then
      let r := takeDigits cs
      (c :: r.1, r.2)
    else ([], c :: cs)

/-- The opening brace character. -/
def lbrace : Char := Char.ofNat 123

/-- The closing brace character. -/
def rbrace : Char := Char.ofNat 125

/-- Hexadecimal digit test for \u escapes. -/
def isHexCh (c : Char) : Bool :=
  c.isDigit || (Char.ofNat 97 ≤ c && c ≤ Char.ofNat 102) ||
  (Char.ofNat 65 ≤ c && c ≤ Char.ofNat 70)

/-- Parses the body of a JSON string after the opening quote.  Unicode
escapes are accepted and replaced by the replacement character (no verified
claim inspects escaped characters). -/
def parseChars : Nat → List Char → List Char → Option (String × List Char)
  | 0, _, _ => none
  | _ + 1, _, [] => none
  | fuel + 1, acc, c :: rest =>
    if c == '"' then some (String.mk acc.reverse, rest)
    else if c == '\\' then
      match rest with
      | [] => none
      | e :: rest2 =>
        if e == 'u' then
          match rest2 with
          | h1 :: h2 :: h3 :: h4 :: rest3 =>
            if isHexCh h1 && isHexCh h2 && isHexCh h3 && isHexCh h4 then
              parseChars fuel (Char.ofNat 65533 :: acc) rest3
            else none
          | _ => none
        else if e == 'n' then parseChars fuel ('\n' :: acc) rest2
        else if e == 't' then parseChars fuel ('\t' :: acc) rest2
        else if e == 'r' then parseChars fuel ('\r' :: acc) rest2
        else if e == 'b' then parseChars fuel (Char.ofNat 8 :: acc) rest2
        else if e == 'f' then parseChars fuel (Char.ofNat 12 :: acc) rest2
        else if e == '"' || e == '\\' || e == '/' then parseChars fuel (e :: acc) rest2
        else none
    else if c.toNat < 32 then none
    else parseChars fuel (c :: acc) rest

/-- Parses an optional JSON fraction part. -/
def parseFrac : List Char → Option (List Char × List Char)
  | '.' :: rest =>
    let d := takeDigits rest
    if d.1.isEmpty then none else some ('.' :: d.1, d.2)
  | cs => some ([], cs)

/-- Parses an optional JSON exponent part. -/
def parseExp : List Char → Option (List Char × List Char)
  | [] => some ([], [])
  | c :: rest =>
    if c == 'e' || c == 'E' then
      let sr : List Char × List Char :=
        match rest with
        | s :: r2 => if s == '+' || s == '-' then ([s], r2) else ([], rest)
        | [] => ([], [])
      let d := takeDigits sr.2
      if d.1.isEmpty then none else some (c :: (sr.1 ++ d.1), d.2)
    else some ([], c :: rest)

/-- Parses a JSON number (sign, integer part without leading zeros,
optional fraction and exponent), returning its lexeme. -/
def parseNumber (cs : List Char) : Option (String × List Char) :=
  let nr : List Char × List Char :=
    match cs with
    | c :: rest => if c == '-' then (['-'], rest) else ([], cs)
    | [] => ([], [])
  let ip := takeDigits nr.2
  if ip.1.isEmpty then none
  else if ip.1.length > 1 && ip.1.head? == some '0' then none
  else
    match parseFrac ip.2 with
    | none => none
    | some (fp, cs3) =>
      match parseExp cs3 with
      | none => none
      | some (ep, cs4) => some (String.mk (nr.1 ++ ip.1 ++ fp ++ ep), cs4)

mutual

/-- Parses one JSON value (fuel-indexed recursive descent). -/
def parseValue : Nat → List Char → Option (Json × List Char)
  | 0, _ => none
  | fuel + 1, cs =>
    match skipWs cs with
    | [] => none
    | c :: rest =>
      if c == 'n' then (expectLit ['u', 'l', 'l'] rest).map (fun r => (Json.nullV, r))
      else if c == 't' then (expectLit ['r', 'u', 'e'] rest).map (fun r => (Json.boolV true, r))
      else if c == 'f' then (expectLit ['a', 'l', 's', 'e'] rest).map (fun r => (Json.boolV false, r))
      else if c == '"' then
        (parseChars (rest.length + 1) [] rest).map (fun sr => (Json.strV sr.1, sr.2))
      else if c == '[' then
        match skipWs rest with
        | ']' :: r => some (Json.arrV [], r)
        | cs2 => (parseItems fuel cs2).map (fun xr => (Json.arrV xr.1, xr.2))
      else if c == lbrace then
        match skipWs rest with
        | c2 :: r =>
          if c2 == rbrace then some (Json.objV [], r)
          else (parseMembers fuel (c2 :: r)).map (fun xr => (Json.objV xr.1, xr.2))
        | [] => none
      else parseNumber (c :: rest) |>.map (fun sr => (Json.numV sr.1, sr.2))

/-- Parses the comma-separated items of a non-empty JSON array. -/
def parseItems : Nat → List Char → Option (List Json × List Char)
  | 0, _ => none
  | fuel + 1, cs =>
    match parseValue fuel cs with
    | none => none
    | some (v, r) =>
      match skipWs r with
      | ',' :: r2 =>
        match parseItems fuel r2 with
        | none => none
        | some (vs, r3) => some (v :: vs, r3)
      | ']' :: r2 => some ([v], r2)
      | _ => none

/-- Parses the members of a non-empty JSON object. -/
def parseMembers : Nat → List Char → Option (List (String × Json) × List Char)
  | 0, _ => none
  | fuel + 1, cs =>
    match skipWs cs with
    | '"' :: rest =>
      match parseChars (rest.length + 1) [] rest with
      | none => none
      | some (k, r) =>
        match skipWs r with
        | ':' :: r2 =>
          match parseValue fuel r2 with
          | none => none
          | some (v, r3) =>
            match skipWs r3 with
            | ',' :: r4 =>
              match parseMembers fuel r4 with
              | none => none
              | some (ms, r5) => some ((k, v) :: ms, r5)
            | c :: r4 => if c == rbrace then some ([(k, v)], r4) else none
            | [] => none
        | _ => none
    | _ => none

end

/-- Model of JSON.parse: `some v` on valid JSON text, `none` when the
platform primitive would throw a SyntaxError. -/
def jsonParse (s : String) : Option Json :=
  match parseValue (s.length + 1) s.data with
  | some (v, r) => if (skipWs r).isEmpty then some v else none
  | none => none

/-- The MusicPlayer constructor's load of a stored collection
(app.js 5-10, identical in part_001 5-10):
JSON.parse(localStorage.getItem(key) || "[]").  `stored` is the raw stored
value, `none` meaning the key is missing; the JS || operator also takes the
"[]" fallback when the stored value is the empty string.  The result `none`
models the uncaught exception JSON.parse throws on malformed input — the
constructor has no try/catch around these two calls. -/
def loadStoredCollection (stored : Option String) : Option Json :=
  let raw : String :=
    match stored with
    | none => "[]"
    | some s => if s = "" then "[]" else s
  jsonParse raw

/- ----------------------------------------------------------------------
The MusicPlayer state and its operations (src/js/app.js).
---------------------------------------------------------------------- -/

/-- The MusicPlayer fields observed by the verified claims (app.js 2-19).
`audioSrc` models this.audio.src; `storedLiked` and `storedPlaylists`
model the localStorage keys grooveLikedSongs and groovePlaylists;
`storedSnapshot` models groovePlaybackState as consumed by
resumePlaybackIfNeeded (already parsed: a missing key and a malformed
value behave identically there because its try/catch swallows the parse
error, so both are `none`). -/
structure PlayerState where
  songs : List Song
  filteredSongs : List Song
  likedSongs : List Song
  playlists : List Playlist
  currentSong : Option Song
  currentPlaylist : List Song
  currentIndex : Int
  isPlaying : Bool
  songsLoaded : Bool
  audioSrc : String
  storedLiked : List Song
  storedPlaylists : List Playlist
  storedSnapshot : Option PlaybackState
deriving DecidableEq, Repr

/-- Model of JS Array.prototype.findIndex: index of the first element
satisfying the predicate, -1 when there is none. -/
def jsFindIndex (p : Song → Bool) (l : List Song) : Int :=
  match l.findIdx? p with
  | some i => (i : Int)
  | none => -1

/-- saveData (app.js 1272-1275): persists the liked songs and the
playlists collections. -/
def saveData (st : PlayerState) : PlayerState :=
  { st with storedLiked := st.likedSongs, storedPlaylists := st.playlists }

/-- The list playSong installs as currentPlaylist (app.js 829-830):
the filtered view when non-empty, otherwise the full catalog. -/
def activeList (st : PlayerState) : List Song :=
  if st.filteredSongs.length > 0 then st.filteredSongs else st.songs

/-- playSong (app.js 827-867).  Sets the current song, derives
currentPlaylist and currentIndex, and assigns the audio source
synchronously.  The play() promise returned afterwards only calls
savePlaybackState on success and showError on failure — neither
continuation touches audio.src or the fields modeled here. -/
def playSong (st : PlayerState) (song : Song) : PlayerState :=
  { st with
    currentSong := some song
    currentPlaylist := activeList st
    currentIndex := jsFindIndex (fun s => s.id == song.id) (activeList st)
    audioSrc := song.audioSrc }

/-- nextSong (app.js 890-895): no-op on an empty currentPlaylist,
otherwise advance currentIndex with wraparound (JS % is truncated
remainder, Int.tmod) and play the song at the new index.  The `none`
branch of the lookup is unreachable whenever currentIndex ≥ -1 (there JS
would pass undefined to playSong and throw). -/
def nextSong (st : PlayerState) : PlayerState :=
  if st.currentPlaylist.length = 0 then st
  else
    let j := (st.currentIndex + 1).tmod st.currentPlaylist.length
    let st' := { st with currentIndex := j }
    match st'.currentPlaylist[j.toNat]? with
    | some s => playSong st' s
    | none => st'

/-- previousSong (app.js 882-888): as nextSong with
(currentIndex - 1 + length) % length. -/
def previousSong (st : PlayerState) : PlayerState :=
  if st.currentPlaylist.length = 0 then st
  else
    let j := (st.currentIndex - 1 + st.currentPlaylist.length).tmod st.currentPlaylist.length
    let st' := { st with currentIndex := j }
    match st'.currentPlaylist[j.toNat]? with
    | some s => playSong st' s
    | none => st'

/-- toggleSongLike (app.js 902-916): silently ignores ids absent from the
catalog; otherwise removes every liked entry with that id, or appends the
catalog's song, then persists via saveData. -/
def toggleSongLike (st : PlayerState) (songId : String) : PlayerState :=
  match st.songs.find? (fun s => s.id == songId) with
  | none => st
  | some song =>
    let isLiked := st.likedSongs.any (fun s => s.id == songId)
    let liked' :=
      if isLiked then st.likedSongs.filter (fun s => s.id != songId)
      else st.likedSongs ++ [song]
    saveData { st with likedSongs := liked' }

/-- Validation failures of createPlaylist (spec §4.3 / §7). -/
inductive CreatePlaylistError where
  | emptyName : CreatePlaylistError
  | duplicateName : CreatePlaylistError
deriving DecidableEq, Repr

/-- createPlaylist (app.js 1087-1127).  `rawName` is the input field's
value and `now` is Date.now() at the call.  Returns the state paired with
the validation failure, if any: an empty trimmed name or a
case-insensitive duplicate returns the state unchanged (the JS function
returns before any mutation); otherwise a playlist with id
Date.now().toString(), the trimmed name and no songs is appended and
persisted. -/
def createPlaylist (st : PlayerState) (rawName : String) (now : Nat) :
    PlayerState × Option CreatePlaylistError :=
  let name := jsTrim rawName
  if name = "" then (st, some CreatePlaylistError.emptyName)
  else if st.playlists.any (fun p => jsToLower p.name == jsToLower name) then
    (st, some CreatePlaylistError.duplicateName)
  else
    (saveData { st with playlists := st.playlists ++ [⟨natToString now, name, []⟩] }, none)

/-- Rewrites the first playlist whose id matches, leaving the rest alone.
JS find returns a reference to that first element and the source mutates
it in place. -/
def modifyFirst (pls : List Playlist) (pid : String) (f : Playlist → Playlist) :
    List Playlist :=
  match pls with
  | [] => []
  | p :: rest => if p.id == pid then f p :: rest else p :: modifyFirst rest pid f

/-- addToPlaylist (app.js 1135-1148): pushes the song id onto the found
playlist and persists, but only when the playlist exists, the song exists
in the catalog, and the id is not already present. -/
def addToPlaylist (st : PlayerState) (playlistId songId : String) : PlayerState :=
  match st.playlists.find? (fun p => p.id == playlistId),
        st.songs.find? (fun s => s.id == songId) with
  | some pl, some _ =>
    if songId ∈ pl.songs then st
    else
      saveData { st with
        playlists := modifyFirst st.playlists playlistId
          (fun p => { p with songs := p.songs ++ [songId] }) }
  | some _, none => st
  | none, _ => st

/-- removeFromPlaylist (app.js 1150-1163, identical in part_001 982-993):
filters the song id out of the found playlist and persists — but only when
BOTH the playlist and the song exist in the catalog (the guard
`if (playlist && song)` needs the song for the toast message), so a
dangling id is never removed. -/
def removeFromPlaylist (st : PlayerState) (playlistId songId : String) : PlayerState :=
  match st.playlists.find? (fun p => p.id == playlistId),
        st.songs.find? (fun s => s.id == songId) with
  | some _, some _ =>
    saveData { st with
      playlists := modifyFirst st.playlists playlistId
        (fun p => { p with songs := p.songs.filter (fun s => s != songId) }) }
  | some _, none => st
  | none, _ => st

/-- resumePlaybackIfNeeded (app.js 419-466).  `now` is Date.now().  The
guard (songs loaded, catalog non-empty) and the freshness test mirror the
source; inside the resume branch the snapshot's song is looked up and made
current when it differs from the current song (the seek and the play()
attempt touch only the audio element).  Note that the function never
assigns currentPlaylist or currentIndex. -/
def resumePlaybackIfNeeded (st : PlayerState) (now : Int) : PlayerState :=
  if !st.songsLoaded || st.songs.length = 0 then st
  else
    match st.storedSnapshot with
    | none => st
    | some snap =>
      if now - snap.timestamp < 300000 && snap.isPlaying then
        match st.songs.find? (fun s => s.id == snap.songId) with
        | some song =>
          if (match st.currentSong with
              | none => true
              | some c => c.id != song.id) then
            { st with currentSong := some song, audioSrc := song.audioSrc }
          else st
        | none => st
      else st

/-- The branch condition at app.js 434 (plus the loaded-catalog guard at
421): true exactly when a focus-time resumption is attempted. -/
def resumeAttempted (st : PlayerState) (now : Int) : Bool :=
  if !st.songsLoaded || st.songs.length = 0 then false
  else
    match st.storedSnapshot with
    | none => false
    | some snap => decide (now - snap.timestamp < 300000) && snap.isPlaying

/-- The PlaybackSession invariant of spec §3: whenever a current song
exists, currentIndex addresses it inside currentPlaylist. -/
def sessionInvariantB (st : PlayerState) : Bool :=
  match st.currentSong with
  | none => true
  | some c =>
    decide (0 ≤ st.currentIndex) &&
    decide (st.currentIndex < (st.currentPlaylist.length : Int)) &&
    decide (st.currentPlaylist[st.currentIndex.toNat]? = some c)

/- ----------------------------------------------------------------------
The part_001 variant's async playSong with the single-slot audio cache.
---------------------------------------------------------------------- -/

/-- The fields of the part_001 MusicPlayer observed by claim C1, plus the
in-flight audio fetches.  `tempCache` models the localStorage key
grooveTempSongCache holding (song id, object URL); `pending` holds the
songs captured by fetch continuations that have not resolved yet. -/
structure AsyncState where
  songs : List Song
  filteredSongs : List Song
  currentSong : Option Song
  currentPlaylist : List Song
  currentIndex : Int
  audioSrc : String
  tempCache : Option (String × String)
  pending : List Song
deriving DecidableEq, Repr

/-- Model of URL.createObjectURL for the blob fetched from a song's
audioSrc: a deterministic blob URL. -/
def objectUrl (s : Song) : String := String.append "blob:" s.audioSrc

/-- Model of JS Array.prototype.findIndex for the async variant. -/
def jsFindIndexA (p : Song → Bool) (l : List Song) : Int :=
  match l.findIdx? p with
  | some i => (i : Int)
  | none => -1

/-- The synchronous prefix of the part_001 playSong (part_001 666-681):
sets currentSong / currentPlaylist / currentIndex, then either serves the
audio source from the single-slot cache (cache id matches) or starts a
fetch of song.audioSrc whose continuation captures `song`. -/
def playSongStart (st : AsyncState) (song : Song) : AsyncState :=
  let pl := if st.filteredSongs.length > 0 then st.filteredSongs else st.songs
  let st1 := { st with
    currentSong := some song
    currentPlaylist := pl
    currentIndex := jsFindIndexA (fun s => s.id == song.id) pl }
  match st1.tempCache with
  | some e =>
    if e.1 == song.id then { st1 with audioSrc := e.2 }
    else { st1 with pending := st1.pending ++ [song] }
  | none => { st1 with pending := st1.pending ++ [song] }

/-- The continuation of the part_001 playSong after its fetch and blob
conversion resolve (part_001 683-690): stores the object URL in the
single-slot cache and assigns it to audio.src.  The source performs no
check that `song` still matches currentSong. -/
def fetchResolve (st : AsyncState) (song : Song) : AsyncState :=
  if song ∈ st.pending then
    { st with
      pending := st.pending.erase song
      tempCache := some (song.id, objectUrl song)
      audioSrc := objectUrl song }
  else st

/- ----------------------------------------------------------------------
Derived definitions used by the theorems.
---------------------------------------------------------------------- -/

/-- A state is ring-ready when currentPlaylist is the active list playSong
derives (filtered view if non-empty, else catalog), the active list's song
ids are pairwise distinct, it is non-empty, and currentIndex addresses it.
This is the situation every ordinary playSong leaves behind; it is the
hypothesis under which the ring-navigation equations hold. -/
def ringReady (st : PlayerState) : Prop :=
  st.currentPlaylist = activeList st ∧
  ((activeList st).map Song.id).Nodup ∧
  st.currentPlaylist ≠ [] ∧
  0 ≤ st.currentIndex ∧
  st.currentIndex < st.currentPlaylist.length

/-- Ring-readiness is decidable, so concrete states can be checked by
evaluation. -/
instance (st : PlayerState) : Decidable (ringReady st) :=
  inferInstanceAs (Decidable (st.currentPlaylist = activeList st ∧
    ((activeList st).map Song.id).Nodup ∧
    st.currentPlaylist ≠ [] ∧
    0 ≤ st.currentIndex ∧
    st.currentIndex < st.currentPlaylist.length))

/-- Runs a sequence of createPlaylist calls, each a (raw name, Date.now())
pair, discarding the per-call validation results as the UI does. -/
def runCreates (st : PlayerState) : List (String × Nat) → PlayerState
  | [] => st
  | c :: rest => runCreates (createPlaylist st c.1 c.2).1 rest

/- ----------------------------------------------------------------------
Concrete songs and states used by counterexamples and witnesses.
---------------------------------------------------------------------- -/

/-- A concrete catalog song. -/
def songA : Song := ⟨"a", "Alpha", "Ann", "covA", "urlA"⟩

/-- A second concrete catalog song. -/
def songB : Song := ⟨"b", "Beta", "Bob", "covB", "urlB"⟩

/-- A third concrete catalog song. -/
def songC : Song := ⟨"c", "Gamma", "Cyd", "covC", "urlC"⟩

/-- A concrete catalog song with id x. -/
def songX : Song := ⟨"x", "Xi", "Xan", "covX", "urlX"⟩

/-- The id of songA. -/
def idA : String := "a"

/-- A concrete playlist id. -/
def pid1 : String := "p1"

/-- A concrete song id used as a playlist entry. -/
def sidX : String := "x"

/-- A concrete playlist name. -/
def nameA : String := "alpha"

/-- Another concrete playlist name. -/
def nameB : String := "beta"

/-- A concrete raw playlist-name input. -/
def rawChill : String := "Chill"

/-- The same name with different letter case. -/
def rawChill2 : String := "cHILL"

/-- The MusicPlayer state right after the constructor runs against an
empty localStorage and before loadSongs resolves (app.js 2-19). -/
def initState : PlayerState :=
  { songs := [], filteredSongs := [], likedSongs := [], playlists := [],
    currentSong := none, currentPlaylist := [], currentIndex := 0,
    isPlaying := false, songsLoaded := false, audioSrc := "",
    storedLiked := [], storedPlaylists := [], storedSnapshot := none }

/-- A fresh playing snapshot for songA saved at epoch 1000. -/
def snapFresh : PlaybackState := ⟨"a", 0, true, 1000, 1⟩

/-- A loaded one-song player that has never played anything, with a fresh
snapshot in storage: the state a reload lands in. -/
def resumeCexState : PlayerState :=
  { initState with songs := [songA], songsLoaded := true,
                   storedSnapshot := some snapFresh }

/-- A playing snapshot for songA saved at epoch 1000000. -/
def snapshotExample : PlaybackState := ⟨"a", 30, true, 1000000, 1⟩

/-- A loaded one-song player holding snapshotExample. -/
def loadedState : PlayerState :=
  { initState with songs := [songA], filteredSongs := [songA],
                   songsLoaded := true, storedSnapshot := some snapshotExample }

/-- A state reached by playing songA from the full catalog and then typing
a search that matches only songB: currentPlaylist still holds all three
songs while filteredSongs holds only songB (handleSearch does not touch
currentPlaylist). -/
def searchMismatchState : PlayerState :=
  { initState with songs := [songA, songB, songC], filteredSongs := [songB],
                   currentSong := some songA,
                   currentPlaylist := [songA, songB, songC],
                   currentIndex := 0, songsLoaded := true }

/-- A three-song player with no active search, playing songA at index 0. -/
def ringState : PlayerState :=
  { initState with songs := [songA, songB, songC],
                   filteredSongs := [songA, songB, songC],
                   currentSong := some songA,
                   currentPlaylist := [songA, songB, songC],
                   currentIndex := 0, songsLoaded := true }

/-- A player whose only playlist holds the dangling id x (the song is
absent from the catalog). -/
def danglingState : PlayerState :=
  { initState with playlists := [⟨"p1", "My list", ["x"]⟩],
                   storedPlaylists := [⟨"p1", "My list", ["x"]⟩] }

/-- A player whose catalog has songX and whose playlist holds ids x, y. -/
def removeState : PlayerState :=
  { initState with songs := [songX],
                   playlists := [⟨"p1", "My list", ["x", "y"]⟩] }

/-- A player with songA in the catalog and one empty playlist. -/
def addState : PlayerState :=
  { initState with songs := [songA], playlists := [⟨"p1", "L", []⟩] }

/-- A player with songA in the catalog and nothing liked. -/
def likeState : PlayerState := { initState with songs := [songA] }

/-- The async (part_001) player, loaded with songs A and B, idle, with an
empty temp cache and no in-flight fetch. -/
def raceInit : AsyncState :=
  { songs := [songA, songB], filteredSongs := [songA, songB],
    currentSong := none, currentPlaylist := [], currentIndex := 0,
    audioSrc := "", tempCache := none, pending := [] }

/-- The race: playSong(A), playSong(B) before either fetch resolves,
then B's fetch resolves, then A's stale fetch resolves last. -/
def raceFinal : AsyncState :=
  fetchResolve (fetchResolve (playSongStart (playSongStart raceInit songA) songB) songB) songA

/- ----------------------------------------------------------------------
Claim C1.
---------------------------------------------------------------------- -/

/-- C1: in the part_001 variant, calling playSong(A) then playSong(B)
before A's audio acquisition completes leaves currentSong = B as the claim
states, but A's late-arriving fetch result is NOT discarded: its
continuation assigns the audio source unconditionally, so the active
source ends up as A's object URL although currentSong is B.  This
evaluates the embedded code on that interleaving, exhibiting the race the
spec itself flags (spec §9 calls it a latent race in the source). -/
theorem playSong_stale_fetch_clobbers :
    raceFinal.currentSong = some songB ∧
    raceFinal.audioSrc = objectUrl songA ∧
    objectUrl songA ≠ objectUrl songB := by
  refine ⟨rfl, rfl, ?_⟩
  decide

/- ----------------------------------------------------------------------
Claim C6.
---------------------------------------------------------------------- -/

/-- C6 counterexample: the stored value "oops" is malformed, and the
constructor's JSON.parse of it is NOT silently recovered to the empty
default — the parse fails (in the browser, the exception propagates out of
the constructor), refuting the claim that every possible stored byte
content is tolerated. -/
theorem load_malformed_not_recovered_cex :
    loadStoredCollection (some ("oops")) = none ∧
    loadStoredCollection (some ("oops")) ≠ some (Json.arrV []) :=
  ⟨rfl, fun h => Option.noConfusion h⟩

/-- C6 amended: a missing key (and, via the JS || fallback, an empty
stored string) is treated as the empty collection, but a malformed stored
value makes JSON.parse throw, and the constructor has no try/catch — the
load raises instead of recovering. -/
theorem load_stored_collections_amended :
    loadStoredCollection none = some (Json.arrV []) ∧
    loadStoredCollection (some ("")) = some (Json.arrV []) ∧
    loadStoredCollection (some ("oops")) = none :=
  ⟨rfl, rfl, rfl⟩

/- ----------------------------------------------------------------------
Claim C5.
---------------------------------------------------------------------- -/

/-- C5 counterexample: the playlist p1 contains the dangling id x (absent
from the catalog), and removeFromPlaylist leaves it in place — the whole
call is a no-op because the source requires the song to exist in the
catalog, refuting the claim that a dangling id is removed. -/
theorem removeFromPlaylist_dangling_cex :
    removeFromPlaylist danglingState pid1 sidX = danglingState ∧
    (removeFromPlaylist danglingState pid1 sidX).playlists.map Playlist.songs = [["x"]] := by
  refine ⟨?_, ?_⟩ <;> decide

/-- Rewriting the first matching playlist preserves find? up to the
rewrite, provided the rewrite keeps the id. -/
theorem find?_modifyFirst (pls : List Playlist) (pid : String) (f : Playlist → Playlist)
    (hf : ∀ p, (f p).id = p.id) (pl : Playlist)
    (h : pls.find? (fun p => p.id == pid) = some pl) :
    (modifyFirst pls pid f).find? (fun p => p.id == pid) = some (f pl) := by
  induction pls with
  | nil => simp at h
  | cons q rest ih =>
    by_cases hq : (q.id == pid) = true
    · rw [List.find?_cons, hq] at h
      injection h with h
      subst h
      have hfq : ((f q).id == pid) = true := by
        rw [hf q]; exact hq
      simp only [modifyFirst, hq, if_true]
      rw [List.find?_cons, hfq]
    · rw [List.find?_cons] at h
      rw [Bool.not_eq_true] at hq
      rw [hq] at h
      simp only [modifyFirst, hq, if_false, Bool.false_eq_true]
      rw [List.find?_cons, hq]
      exact ih h

/-- Every element of a modifyFirst result is either an original playlist
or the rewrite of the playlist find? locates. -/
theorem mem_modifyFirst (pls : List Playlist) (pid : String) (f : Playlist → Playlist) :
    ∀ q ∈ modifyFirst pls pid f,
      q ∈ pls ∨ ∃ p, pls.find? (fun x => x.id == pid) = some p ∧ q = f p := by
  induction pls with
  | nil => intro q hq; simp [modifyFirst] at hq
  | cons r rest ih =>
    intro q hq
    by_cases hr : (r.id == pid) = true
    · simp only [modifyFirst, hr, if_true] at hq
      rcases List.mem_cons.mp hq with h | h
      · exact Or.inr ⟨r, by rw [List.find?_cons, hr], h⟩
      · exact Or.inl (List.mem_cons_of_mem _ h)
    · rw [Bool.not_eq_true] at hr
      simp only [modifyFirst, hr, if_false, Bool.false_eq_true] at hq
      rcases List.mem_cons.mp hq with h | h
      · exact Or.inl (h ▸ List.mem_cons_self r rest)
      · rcases ih q h with h' | ⟨p, hp, hq'⟩
        · exact Or.inl (List.mem_cons_of_mem _ h')
        · exact Or.inr ⟨p, by rw [List.find?_cons, hr]; exact hp, hq'⟩

/-- C5 amended: removeFromPlaylist removes the id from the (first)
matching playlist and persists, but only when both the playlist and the
song exist in the Catalog; when the playlist is missing, or the id is
dangling (no catalog song carries it), the call is a no-op — even if the
id is present in the playlist. -/
theorem removeFromPlaylist_amended :
    (∀ st pid sid, st.songs.find? (fun s => s.id == sid) = none →
      removeFromPlaylist st pid sid = st) ∧
    (∀ st pid sid, st.playlists.find? (fun p => p.id == pid) = none →
      removeFromPlaylist st pid sid = st) ∧
    (∀ st pid sid pl s, st.playlists.find? (fun p => p.id == pid) = some pl →
      st.songs.find? (fun x => x.id == sid) = some s →
      ((removeFromPlaylist st pid sid).playlists.find? (fun p => p.id == pid) =
          some { pl with songs := pl.songs.filter (fun x => x != sid) } ∧
        sid ∉ pl.songs.filter (fun x => x != sid) ∧
        (removeFromPlaylist st pid sid).storedPlaylists =
          (removeFromPlaylist st pid sid).playlists)) := by
  refine ⟨?_, ?_, ?_⟩
  · intro st pid sid h
    unfold removeFromPlaylist
    rw [h]
    cases st.playlists.find? (fun p => p.id == pid) <;> rfl
  · intro st pid sid h
    unfold removeFromPlaylist
    rw [h]
  · intro st pid sid pl s hp hs
    have hred : removeFromPlaylist st pid sid =
        saveData { st with
          playlists := modifyFirst st.playlists pid
            (fun p => { p with songs := p.songs.filter (fun x => x != sid) }) } := by
      unfold removeFromPlaylist
      rw [hp, hs]
    refine ⟨?_, ?_, ?_⟩
    · rw [hred]
      show (modifyFirst st.playlists pid
          (fun p => { p with songs := p.songs.filter (fun x => x != sid) })).find?
            (fun p => p.id == pid) = _
      exact find?_modifyFirst st.playlists pid
        (fun p => { p with songs := p.songs.filter (fun x => x != sid) })
        (fun p => rfl) pl hp
    · intro hmem
      have := (List.mem_filter.mp hmem).2
      simp at this
    · rw [hred]
      rfl

/-- C5 amended witness: in removeState (catalog has songX, playlist p1
holds x and y) removing x from p1 leaves exactly y. -/
theorem removeFromPlaylist_amended_witness :
    (removeFromPlaylist removeState pid1 sidX).playlists.find? (fun p => p.id == pid1) =
      some ⟨"p1", "My list", ["y"]⟩ := by
  have h := (removeFromPlaylist_amended.2.2 removeState pid1 sidX
    ⟨"p1", "My list", ["x", "y"]⟩ songX (by decide) (by decide)).1
  exact h.trans (by decide)

/- ----------------------------------------------------------------------
Claim C4.
---------------------------------------------------------------------- -/

/-- C4: once the catalog is loaded and non-empty, a focus-time resumption
is attempted exactly when a snapshot is stored, its playing flag is set,
and it is strictly fresher than 300000 ms; concretely, a snapshot saved
exactly 301 seconds ago does not trigger resumption (the state is
untouched) while one saved 299 seconds ago attempts it. -/
theorem resume_freshness_iff :
    (∀ st now, st.songsLoaded = true → st.songs ≠ [] →
      (resumeAttempted st now = true ↔
        ∃ snap, st.storedSnapshot = some snap ∧ snap.isPlaying = true ∧
          now - snap.timestamp < 300000)) ∧
    resumeAttempted loadedState (1000000 + 301000) = false ∧
    resumePlaybackIfNeeded loadedState (1000000 + 301000) = loadedState ∧
    resumeAttempted loadedState (1000000 + 299000) = true := by
  refine ⟨?_, by decide, by decide, by decide⟩
  intro st now hl hs
  have hcond : (!st.songsLoaded || decide (st.songs.length = 0)) = false := by
    rw [hl]
    simp [List.length_eq_zero, hs]
  unfold resumeAttempted
  rw [hcond]
  simp only [Bool.false_eq_true, if_false]
  cases hsnap : st.storedSnapshot with
  | none => simp [hsnap]
  | some snap =>
    simp only [Bool.and_eq_true, decide_eq_true_eq, Option.some.injEq]
    constructor
    · rintro ⟨h1, h2⟩
      exact ⟨snap, rfl, h2, h1⟩
    · rintro ⟨snap2, heq, h2, h1⟩
      subst heq
      exact ⟨h1, h2⟩

/-- C4 witness: at epoch 1000000 (snapshot age 0) the loaded example state
attempts resumption. -/
theorem resume_freshness_iff_witness :
    resumeAttempted loadedState (1000000 : Int) = true := by
  have h := resume_freshness_iff.1 loadedState 1000000 rfl (by decide)
  exact h.mpr ⟨snapshotExample, rfl, rfl, by decide⟩

/-- In a list with pairwise-distinct song ids, findIndex on the id of the
element at position j returns j. -/
theorem jsFindIndex_of_nodup (l : List Song) (hnd : (l.map Song.id).Nodup)
    (j : Nat) (hj : j < l.length) :
    jsFindIndex (fun x => x.id == (l[j]).id) l = (j : Int) := by
  have hfind : l.findIdx? (fun x => x.id == (l[j]).id) = some j := by
    rw [List.findIdx?_eq_some_iff_getElem]
    refine ⟨hj, by simp, fun k hk => ?_⟩
    simp only [Bool.not_eq_true, beq_eq_false_iff_ne, ne_eq]
    intro he
    have hkb : k < (l.map Song.id).length := by simpa using Nat.lt_trans hk hj
    have hjb : j < (l.map Song.id).length := by simpa using hj
    have hmap : (l.map Song.id)[k] = (l.map Song.id)[j] := by
      simpa using he
    have hkj := hnd.getElem_inj_iff.mp hmap
    omega
  simp [jsFindIndex, hfind]

/-- playSong establishes the session invariant whenever the played song
occurs in the active list and the active list's ids are distinct. -/
theorem playSong_invariant (st : PlayerState) (s : Song)
    (hmem : s ∈ activeList st) (hnd : ((activeList st).map Song.id).Nodup) :
    sessionInvariantB (playSong st s) = true := by
  obtain ⟨j, hj, hget⟩ := List.mem_iff_getElem.mp hmem
  have hfi : jsFindIndex (fun x => x.id == s.id) (activeList st) = (j : Int) := by
    have h := jsFindIndex_of_nodup (activeList st) hnd j hj
    rw [hget] at h
    exact h
  simp only [sessionInvariantB, playSong, hfi]
  simp only [Bool.and_eq_true, decide_eq_true_eq]
  refine ⟨⟨Int.ofNat_nonneg j, by exact_mod_cast hj⟩, ?_⟩
  rw [Int.toNat_ofNat, List.getElem?_eq_getElem hj, hget]

/-- playSong keeps ring-readiness when the played song occurs in the
active list (with distinct ids). -/
theorem playSong_ringReady (st : PlayerState) (s : Song)
    (hmem : s ∈ activeList st) (hnd : ((activeList st).map Song.id).Nodup) :
    ringReady (playSong st s) := by
  obtain ⟨j, hj, hget⟩ := List.mem_iff_getElem.mp hmem
  have hfi : jsFindIndex (fun x => x.id == s.id) (activeList st) = (j : Int) := by
    have h := jsFindIndex_of_nodup (activeList st) hnd j hj
    rw [hget] at h
    exact h
  have hact : activeList (playSong st s) = activeList st := rfl
  refine ⟨?_, ?_, ?_, ?_, ?_⟩
  · show activeList st = activeList (playSong st s)
    rw [hact]
  · rw [hact]; exact hnd
  · show activeList st ≠ []
    intro hnil
    rw [hnil] at hj
    simp at hj
  · show 0 ≤ jsFindIndex (fun x => x.id == s.id) (activeList st)
    rw [hfi]; exact Int.ofNat_nonneg j
  · show jsFindIndex (fun x => x.id == s.id) (activeList st) <
      ((activeList st).length : Int)
    rw [hfi]; exact_mod_cast hj

/-- Playing the song at a valid index j of the current playlist (the
common body of nextSong and previousSong after the wraparound
arithmetic): the new index is j, the song at j becomes current, the
playlist is unchanged, and ring-readiness and the session invariant hold
afterwards. -/
theorem stepRing_spec (st : PlayerState) (h : ringReady st) (j : Int)
    (hj0 : 0 ≤ j) (hjn : j < (st.currentPlaylist.length : Int)) :
    ∀ res, res = (match st.currentPlaylist[j.toNat]? with
        | some s => playSong { st with currentIndex := j } s
        | none => { st with currentIndex := j }) →
      res.currentIndex = j ∧
      res.currentSong = st.currentPlaylist[j.toNat]? ∧
      res.currentPlaylist = st.currentPlaylist ∧
      ringReady res ∧
      sessionInvariantB res = true := by
  obtain ⟨hpl, hnd, hne, hge, hlt⟩ := h
  have hndl : (st.currentPlaylist.map Song.id).Nodup := by rw [hpl]; exact hnd
  have hjnat : j.toNat < st.currentPlaylist.length := by omega
  have hsome : st.currentPlaylist[j.toNat]? =
      some (st.currentPlaylist[j.toNat]) :=
    List.getElem?_eq_getElem hjnat
  intro res hres
  rw [hsome] at hres
  set e := st.currentPlaylist[j.toNat] with he
  have hmem_l : e ∈ st.currentPlaylist := by rw [he]; exact List.getElem_mem hjnat
  set st2 := { st with currentIndex := j } with hst2
  have hact2 : activeList st2 = activeList st := rfl
  have hnd2 : ((activeList st2).map Song.id).Nodup := hnd
  have hmem : e ∈ activeList st2 := by
    rw [hact2, ← hpl]
    exact hmem_l
  have hfi : jsFindIndex (fun x => x.id == e.id) (activeList st2) =
      ((j.toNat : Nat) : Int) := by
    have hh := jsFindIndex_of_nodup st.currentPlaylist hndl j.toNat hjnat
    rw [← he] at hh
    rw [hact2, ← hpl]
    exact hh
  subst hres
  refine ⟨?_, ?_, ?_, ?_, ?_⟩
  · show jsFindIndex (fun x => x.id == e.id) (activeList st2) = j
    rw [hfi, Int.toNat_of_nonneg hj0]
  · show some e = st.currentPlaylist[j.toNat]?
    exact hsome.symm
  · show activeList st2 = st.currentPlaylist
    rw [hact2, ← hpl]
  · exact playSong_ringReady st2 e hmem hnd2
  · exact playSong_invariant st2 e hmem hnd2

/-- nextSong under ring-readiness: the new index is (i + 1) % n, the song
at that index becomes current, the playlist is unchanged, ring-readiness
is preserved and the session invariant holds. -/
theorem nextSong_spec (st : PlayerState) (h : ringReady st) :
    (nextSong st).currentIndex =
      (st.currentIndex + 1).tmod st.currentPlaylist.length ∧
    (nextSong st).currentSong =
      st.currentPlaylist[((st.currentIndex + 1).tmod (st.currentPlaylist.length : Int)).toNat]? ∧
    (nextSong st).currentPlaylist = st.currentPlaylist ∧
    ringReady (nextSong st) ∧
    sessionInvariantB (nextSong st) = true := by
  have hne := h.2.2.1
  have hge := h.2.2.2.1
  have hlen : 0 < st.currentPlaylist.length := List.length_pos.mpr hne
  have hn0 : ¬ st.currentPlaylist.length = 0 := by omega
  have hnpos : 0 < (st.currentPlaylist.length : Int) := by exact_mod_cast hlen
  have hj0 : 0 ≤ (st.currentIndex + 1).tmod st.currentPlaylist.length :=
    Int.tmod_nonneg _ (by omega)
  have hjn : (st.currentIndex + 1).tmod st.currentPlaylist.length <
      (st.currentPlaylist.length : Int) := Int.tmod_lt_of_pos _ hnpos
  have hshape : nextSong st =
      (match st.currentPlaylist[((st.currentIndex + 1).tmod (st.currentPlaylist.length : Int)).toNat]? with
        | some s =>
          playSong { st with currentIndex := (st.currentIndex + 1).tmod st.currentPlaylist.length } s
        | none => { st with currentIndex := (st.currentIndex + 1).tmod st.currentPlaylist.length }) := by
    show (if st.currentPlaylist.length = 0 then st else _) = _
    rw [if_neg hn0]
  exact stepRing_spec st h _ hj0 hjn (nextSong st) hshape

/-- previousSong under ring-readiness: the new index is
(i - 1 + n) % n, the song at that index becomes current, the playlist is
unchanged, ring-readiness is preserved and the session invariant holds. -/
theorem previousSong_spec (st : PlayerState) (h : ringReady st) :
    (previousSong st).currentIndex =
      (st.currentIndex - 1 + st.currentPlaylist.length).tmod st.currentPlaylist.length ∧
    (previousSong st).currentSong =
      st.currentPlaylist[((st.currentIndex - 1 + (st.currentPlaylist.length : Int)).tmod (st.currentPlaylist.length : Int)).toNat]? ∧
    (previousSong st).currentPlaylist = st.currentPlaylist ∧
    ringReady (previousSong st) ∧
    sessionInvariantB (previousSong st) = true := by
  have hne := h.2.2.1
  have hge := h.2.2.2.1
  have hlen : 0 < st.currentPlaylist.length := List.length_pos.mpr hne
  have hn0 : ¬ st.currentPlaylist.length = 0 := by omega
  have hnpos : 0 < (st.currentPlaylist.length : Int) := by exact_mod_cast hlen
  have hj0 : 0 ≤ (st.currentIndex - 1 + st.currentPlaylist.length).tmod st.currentPlaylist.length :=
    Int.tmod_nonneg _ (by omega)
  have hjn : (st.currentIndex - 1 + st.currentPlaylist.length).tmod st.currentPlaylist.length <
      (st.currentPlaylist.length : Int) := Int.tmod_lt_of_pos _ hnpos
  have hshape : previousSong st =
      (match st.currentPlaylist[((st.currentIndex - 1 + (st.currentPlaylist.length : Int)).tmod (st.currentPlaylist.length : Int)).toNat]? with
        | some s =>
          playSong { st with currentIndex := (st.currentIndex - 1 + st.currentPlaylist.length).tmod st.currentPlaylist.length } s
        | none => { st with currentIndex := (st.currentIndex - 1 + st.currentPlaylist.length).tmod st.currentPlaylist.length }) := by
    show (if st.currentPlaylist.length = 0 then st else _) = _
    rw [if_neg hn0]
  exact stepRing_spec st h _ hj0 hjn (previousSong st) hshape

/-- Iterating nextSong k times under ring-readiness adds k to the index
modulo the playlist length and leaves the playlist unchanged. -/
theorem nextSong_iter (k : Nat) : ∀ st, ringReady st →
    ringReady (nextSong^[k] st) ∧
    (nextSong^[k] st).currentPlaylist = st.currentPlaylist ∧
    (nextSong^[k] st).currentIndex =
      (st.currentIndex + k).tmod st.currentPlaylist.length := by
  induction k with
  | zero =>
    intro st h
    have hge := h.2.2.2.1
    have hlt := h.2.2.2.2
    refine ⟨h, rfl, ?_⟩
    simp only [Function.iterate_zero, id_eq, Nat.cast_zero, add_zero]
    exact (Int.tmod_eq_of_lt hge hlt).symm
  | succ k ih =>
    intro st h
    have hge := h.2.2.2.1
    have hlen : 0 < st.currentPlaylist.length := List.length_pos.mpr h.2.2.1
    have hn0 : (0 : Int) ≤ (st.currentPlaylist.length : Int) := by positivity
    obtain ⟨h1, _, h3, h4, _⟩ := nextSong_spec st h
    obtain ⟨ihr, ihpl, ihidx⟩ := ih (nextSong st) h4
    rw [Function.iterate_succ_apply]
    refine ⟨ihr, by rw [ihpl, h3], ?_⟩
    rw [ihidx, h3, h1]
    have htm0 : 0 ≤ (st.currentIndex + 1).tmod (st.currentPlaylist.length : Int) :=
      Int.tmod_nonneg _ (by omega)
    rw [Int.tmod_eq_emod (by omega) hn0, Int.tmod_eq_emod (by omega) hn0,
      Int.tmod_eq_emod (by omega) hn0, Int.emod_add_emod]
    congr 1
    push_cast
    ring

/- ----------------------------------------------------------------------
Claim C2.
---------------------------------------------------------------------- -/

/-- C2 counterexample: snapshot resumption is a playback-controller
operation that violates the session invariant.  In resumeCexState (loaded
one-song catalog, fresh playing snapshot, nothing played yet),
resumePlaybackIfNeeded installs songA as currentSong but leaves
currentPlaylist empty and currentIndex untouched, so
currentPlaylist[currentIndex] cannot equal currentSong. -/
theorem resume_breaks_session_invariant :
    (resumePlaybackIfNeeded resumeCexState 1000).currentSong = some songA ∧
    sessionInvariantB (resumePlaybackIfNeeded resumeCexState 1000) = false := by
  refine ⟨?_, ?_⟩ <;> decide

/-- C2 amended: the session invariant (0 ≤ currentIndex < |currentPlaylist|
and currentPlaylist[currentIndex] = currentSong) holds after playSong on
any song occurring in the active list when the active list's ids are
pairwise distinct, and after nextSong / previousSong from any ring-ready
state; snapshot resumption is excluded (it never assigns currentPlaylist
or currentIndex). -/
theorem session_invariant_amended :
    (∀ st s, s ∈ activeList st → ((activeList st).map Song.id).Nodup →
      sessionInvariantB (playSong st s) = true) ∧
    (∀ st, ringReady st → sessionInvariantB (nextSong st) = true) ∧
    (∀ st, ringReady st → sessionInvariantB (previousSong st) = true) :=
  ⟨playSong_invariant,
   fun st h => (nextSong_spec st h).2.2.2.2,
   fun st h => (previousSong_spec st h).2.2.2.2⟩

/-- C2 amended witness: in the concrete three-song ringState, playing
songB and skipping forward both leave the invariant intact. -/
theorem session_invariant_amended_witness :
    sessionInvariantB (playSong ringState songB) = true ∧
    sessionInvariantB (nextSong ringState) = true ∧
    sessionInvariantB (previousSong ringState) = true :=
  ⟨session_invariant_amended.1 ringState songB (by decide) (by decide),
   session_invariant_amended.2.1 ringState (by decide),
   session_invariant_amended.2.2 ringState (by decide)⟩

/- ----------------------------------------------------------------------
Claim C3.
---------------------------------------------------------------------- -/

/-- C3 counterexample: nextSong does not set currentIndex to (i + 1) % n
for every non-empty currentPlaylist.  In searchMismatchState (reachable by
playing songA from the unfiltered catalog and then searching for songB)
the playlist has 3 songs and index 0, yet nextSong ends with currentIndex
0, not 1 — the playSong it invokes rebuilds currentPlaylist from the
changed filtered view. -/
theorem nextSong_not_modular_cex :
    searchMismatchState.currentPlaylist.length = 3 ∧
    searchMismatchState.currentIndex = 0 ∧
    (nextSong searchMismatchState).currentIndex = 0 ∧
    (nextSong searchMismatchState).currentIndex ≠
      (searchMismatchState.currentIndex + 1).tmod searchMismatchState.currentPlaylist.length := by
  refine ⟨?_, ?_, ?_, ?_⟩ <;> decide

/-- C3 amended: in every ring-ready state (currentPlaylist equals the
active list, whose ids are pairwise distinct, and currentIndex addresses
it) nextSong sets currentIndex to (i + 1) % n and previousSong to
(i - 1 + n) % n, each then playing the song at the new index; composing
nextSong n times returns currentIndex to its starting value; on a
1-element playlist both operations yield index 0 and replay the single
song; on an empty currentPlaylist both are no-ops (no ring-readiness
needed). -/
theorem ring_navigation_amended :
    (∀ st, ringReady st →
      (nextSong st).currentIndex = (st.currentIndex + 1).tmod st.currentPlaylist.length ∧
      (nextSong st).currentSong =
        st.currentPlaylist[((st.currentIndex + 1).tmod (st.currentPlaylist.length : Int)).toNat]?) ∧
    (∀ st, ringReady st →
      (previousSong st).currentIndex =
        (st.currentIndex - 1 + st.currentPlaylist.length).tmod st.currentPlaylist.length ∧
      (previousSong st).currentSong =
        st.currentPlaylist[((st.currentIndex - 1 + (st.currentPlaylist.length : Int)).tmod (st.currentPlaylist.length : Int)).toNat]?) ∧
    (∀ st, ringReady st →
      (nextSong^[st.currentPlaylist.length] st).currentIndex = st.currentIndex) ∧
    (∀ st, st.currentPlaylist = [] → nextSong st = st ∧ previousSong st = st) ∧
    (∀ st, ringReady st → st.currentPlaylist.length = 1 →
      (nextSong st).currentIndex = 0 ∧ (previousSong st).currentIndex = 0 ∧
      (nextSong st).currentSong = st.currentPlaylist[0]?) := by
  refine ⟨?_, ?_, ?_, ?_, ?_⟩
  · intro st h
    obtain ⟨h1, h2, _, _, _⟩ := nextSong_spec st h
    exact ⟨h1, h2⟩
  · intro st h
    obtain ⟨h1, h2, _, _, _⟩ := previousSong_spec st h
    exact ⟨h1, h2⟩
  · intro st h
    obtain ⟨_, _, hidx⟩ := nextSong_iter st.currentPlaylist.length st h
    rw [hidx]
    have hge := h.2.2.2.1
    have hlt := h.2.2.2.2
    have hn0 : (0 : Int) ≤ (st.currentPlaylist.length : Int) := by positivity
    rw [Int.tmod_eq_emod (by omega) hn0]
    rw [show st.currentIndex + (st.currentPlaylist.length : Int) =
      st.currentIndex + 1 * (st.currentPlaylist.length : Int) from by ring]
    rw [Int.add_mul_emod_self]
    exact Int.emod_eq_of_lt hge hlt
  · intro st hemp
    have hl : st.currentPlaylist.length = 0 := by rw [hemp]; rfl
    constructor
    · show (if st.currentPlaylist.length = 0 then st else _) = st
      rw [if_pos hl]
    · show (if st.currentPlaylist.length = 0 then st else _) = st
      rw [if_pos hl]
  · intro st h h1
    obtain ⟨hn1, hn2, _, _, _⟩ := nextSong_spec st h
    obtain ⟨hp1, _, _, _, _⟩ := previousSong_spec st h
    rw [h1] at hn1 hn2 hp1
    refine ⟨by rw [hn1]; simp [Int.tmod_one], by rw [hp1]; simp [Int.tmod_one], ?_⟩
    rw [hn2]
    norm_num [Int.tmod_one]

/-- C3 amended witness: on the concrete ringState ([A,B,C], index 0) the
index sequence under next, next, next is 1, 2, 0, and previousSong wraps
0 to 2. -/
theorem ring_navigation_amended_witness :
    (nextSong ringState).currentIndex = 1 ∧
    (nextSong (nextSong ringState)).currentIndex = 2 ∧
    (nextSong (nextSong (nextSong ringState))).currentIndex = 0 ∧
    (previousSong ringState).currentIndex = 2 := by
  have g1 := (ring_navigation_amended.1 ringState (by decide)).1
  have g2 := (ring_navigation_amended.1 (nextSong ringState) (by decide)).1
  have g3 := (ring_navigation_amended.1 (nextSong (nextSong ringState)) (by decide)).1
  have gp := (ring_navigation_amended.2.1 ringState (by decide)).1
  exact ⟨g1.trans (by decide), g2.trans (by decide), g3.trans (by decide),
    gp.trans (by decide)⟩

/- ----------------------------------------------------------------------
Claim C7.
---------------------------------------------------------------------- -/

/-- C7: createPlaylist fails on an empty trimmed name and on a
case-insensitive duplicate, leaving the state (hence the playlists
collection) unchanged; otherwise it appends exactly one playlist
{Date.now().toString(), trimmed name, no songs} and persists.  In
particular two calls whose trimmed names differ only by case leave exactly
one stored playlist, the second failing with DuplicateName. -/
theorem createPlaylist_spec :
    (∀ st raw now, jsTrim raw = "" →
      createPlaylist st raw now = (st, some CreatePlaylistError.emptyName)) ∧
    (∀ st raw now p, p ∈ st.playlists → jsTrim raw ≠ "" →
      jsToLower p.name = jsToLower (jsTrim raw) →
      createPlaylist st raw now = (st, some CreatePlaylistError.duplicateName)) ∧
    (∀ st raw now, jsTrim raw ≠ "" →
      (∀ p ∈ st.playlists, jsToLower p.name ≠ jsToLower (jsTrim raw)) →
      (createPlaylist st raw now).2 = none ∧
      (createPlaylist st raw now).1.playlists =
        st.playlists ++ [⟨natToString now, jsTrim raw, []⟩] ∧
      (createPlaylist st raw now).1.storedPlaylists =
        (createPlaylist st raw now).1.playlists) ∧
    (∀ st r1 r2 t1 t2, jsTrim r1 ≠ "" → jsTrim r2 ≠ "" →
      jsToLower (jsTrim r2) = jsToLower (jsTrim r1) →
      (∀ p ∈ st.playlists, jsToLower p.name ≠ jsToLower (jsTrim r1)) →
      (createPlaylist st r1 t1).2 = none ∧
      (createPlaylist st r1 t1).1.playlists =
        st.playlists ++ [⟨natToString t1, jsTrim r1, []⟩] ∧
      createPlaylist (createPlaylist st r1 t1).1 r2 t2 =
        ((createPlaylist st r1 t1).1, some CreatePlaylistError.duplicateName)) := by
  have hok : ∀ st raw now, jsTrim raw ≠ "" →
      (∀ p ∈ st.playlists, jsToLower p.name ≠ jsToLower (jsTrim raw)) →
      createPlaylist st raw now =
        (saveData { st with
          playlists := st.playlists ++ [⟨natToString now, jsTrim raw, []⟩] }, none) := by
    intro st raw now hne hall
    have hany : st.playlists.any
        (fun p => jsToLower p.name == jsToLower (jsTrim raw)) = false := by
      rw [List.any_eq_false]
      intro p hp
      simp only [beq_iff_eq]
      exact hall p hp
    unfold createPlaylist
    rw [if_neg hne, hany]
    simp only [Bool.false_eq_true, if_false]
  have hdup : ∀ st raw now p, p ∈ st.playlists → jsTrim raw ≠ "" →
      jsToLower p.name = jsToLower (jsTrim raw) →
      createPlaylist st raw now = (st, some CreatePlaylistError.duplicateName) := by
    intro st raw now p hp hne hlow
    have hany : st.playlists.any
        (fun q => jsToLower q.name == jsToLower (jsTrim raw)) = true :=
      List.any_eq_true.mpr ⟨p, hp, beq_iff_eq.mpr hlow⟩
    unfold createPlaylist
    rw [if_neg hne, hany]
    simp only [if_true]
  refine ⟨?_, hdup, ?_, ?_⟩
  · intro st raw now h
    unfold createPlaylist
    rw [if_pos h]
  · intro st raw now hne hall
    rw [hok st raw now hne hall]
    exact ⟨rfl, rfl, rfl⟩
  · intro st r1 r2 t1 t2 hne1 hne2 hlow hall
    have h1 := hok st r1 t1 hne1 hall
    refine ⟨by rw [h1], by rw [h1]; rfl, ?_⟩
    have hmem : (⟨natToString t1, jsTrim r1, []⟩ : Playlist) ∈
        (createPlaylist st r1 t1).1.playlists := by
      rw [h1]
      exact List.mem_append_right _ (List.mem_singleton.mpr rfl)
    exact hdup (createPlaylist st r1 t1).1 r2 t2 ⟨natToString t1, jsTrim r1, []⟩ hmem hne2 hlow.symm

/-- C7 witness: creating Chill in the empty player succeeds, and creating
cHILL right after fails with DuplicateName without touching the state. -/
theorem createPlaylist_spec_witness :
    (createPlaylist initState rawChill 7).2 = none ∧
    createPlaylist (createPlaylist initState rawChill 7).1 rawChill2 8 =
      ((createPlaylist initState rawChill 7).1, some CreatePlaylistError.duplicateName) := by
  have h := createPlaylist_spec.2.2.2 initState rawChill rawChill2 7 8
    (by decide) (by decide) (by decide) (by decide)
  exact ⟨h.1, h.2.2⟩

/-- One addToPlaylist call preserves duplicate-freeness of every
playlist's song ids: the push only happens when the id is absent from the
found (first-matching) playlist, and only that playlist is rewritten. -/
theorem addToPlaylist_preserves_nodup (st : PlayerState) (pid sid : String)
    (h : ∀ pl ∈ st.playlists, pl.songs.Nodup) :
    ∀ pl ∈ (addToPlaylist st pid sid).playlists, pl.songs.Nodup := by
  intro pl hpl
  rcases hf1 : st.playlists.find? (fun p => p.id == pid) with _ | pl0
  · unfold addToPlaylist at hpl
    simp only [hf1] at hpl
    exact h pl hpl
  rcases hf2 : st.songs.find? (fun s => s.id == sid) with _ | s0
  · unfold addToPlaylist at hpl
    simp only [hf1, hf2] at hpl
    exact h pl hpl
  by_cases hin : sid ∈ pl0.songs
  · unfold addToPlaylist at hpl
    simp only [hf1, hf2, if_pos hin] at hpl
    exact h pl hpl
  · unfold addToPlaylist at hpl
    simp only [hf1, hf2, if_neg hin] at hpl
    have hpl2 : pl ∈ modifyFirst st.playlists pid
        (fun p => { p with songs := p.songs ++ [sid] }) := hpl
    rcases mem_modifyFirst _ _ _ pl hpl2 with hmem | ⟨p, hp, hq⟩
    · exact h pl hmem
    · rw [hf1] at hp
      injection hp with hp
      subst hp
      subst hq
      have hnod : pl0.songs.Nodup := h pl0 (List.mem_of_find?_eq_some hf1)
      simp [List.nodup_append, hnod, hin]

/-- Iterating the same addToPlaylist call any number of times keeps every
playlist's song ids duplicate-free. -/
theorem addToPlaylist_iter_nodup (pid sid : String) :
    ∀ (k : Nat) (st : PlayerState), (∀ pl ∈ st.playlists, pl.songs.Nodup) →
      ∀ pl ∈ ((fun s => addToPlaylist s pid sid)^[k] st).playlists, pl.songs.Nodup := by
  intro k
  induction k with
  | zero => intro st h; simpa using h
  | succ k ih =>
    intro st h
    rw [Function.iterate_succ_apply]
    exact ih _ (addToPlaylist_preserves_nodup st pid sid h)

/- ----------------------------------------------------------------------
Claim C9.
---------------------------------------------------------------------- -/

/-- C9: addToPlaylist is a no-op unless the playlist exists, the song
exists in the catalog, and the id is not already present (in which case
exactly that id is appended to the found playlist); consequently repeated
identical calls never introduce a duplicate id into any playlist. -/
theorem addToPlaylist_spec :
    (∀ st pid sid, st.playlists.find? (fun p => p.id == pid) = none →
      addToPlaylist st pid sid = st) ∧
    (∀ st pid sid, st.songs.find? (fun s => s.id == sid) = none →
      addToPlaylist st pid sid = st) ∧
    (∀ st pid sid pl, st.playlists.find? (fun p => p.id == pid) = some pl →
      sid ∈ pl.songs → addToPlaylist st pid sid = st) ∧
    (∀ st pid sid pl s, st.playlists.find? (fun p => p.id == pid) = some pl →
      st.songs.find? (fun x => x.id == sid) = some s → sid ∉ pl.songs →
      (addToPlaylist st pid sid).playlists.find? (fun p => p.id == pid) =
        some { pl with songs := pl.songs ++ [sid] } ∧
      (addToPlaylist st pid sid).storedPlaylists =
        (addToPlaylist st pid sid).playlists) ∧
    (∀ st pid sid k, (∀ pl ∈ st.playlists, pl.songs.Nodup) →
      ∀ pl ∈ ((fun s => addToPlaylist s pid sid)^[k] st).playlists, pl.songs.Nodup) := by
  refine ⟨?_, ?_, ?_, ?_, fun st pid sid k h => addToPlaylist_iter_nodup pid sid k st h⟩
  · intro st pid sid h
    unfold addToPlaylist
    rw [h]
  · intro st pid sid h
    unfold addToPlaylist
    rw [h]
    cases st.playlists.find? (fun p => p.id == pid) <;> rfl
  · intro st pid sid pl hf hin
    unfold addToPlaylist
    rw [hf]
    cases st.songs.find? (fun s => s.id == sid) with
    | none => rfl
    | some s =>
      show (if sid ∈ pl.songs then st else _) = st
      rw [if_pos hin]
  · intro st pid sid pl s hf1 hf2 hin
    have hred : addToPlaylist st pid sid =
        saveData { st with
          playlists := modifyFirst st.playlists pid
            (fun p => { p with songs := p.songs ++ [sid] }) } := by
      unfold addToPlaylist
      rw [hf1, hf2]
      show (if sid ∈ pl.songs then st else _) = _
      rw [if_neg hin]
    constructor
    · rw [hred]
      show (modifyFirst st.playlists pid
        (fun p => { p with songs := p.songs ++ [sid] })).find? (fun p => p.id == pid) = _
      exact find?_modifyFirst st.playlists pid
        (fun p => { p with songs := p.songs ++ [sid] }) (fun p => rfl) pl hf1
    · rw [hred]
      rfl

/-- C9 witness: adding songA to the empty playlist p1 twice leaves the
playlist's ids duplicate-free. -/
theorem addToPlaylist_spec_witness :
    (⟨"p1", "L", ["a"]⟩ : Playlist).songs.Nodup := by
  have h := addToPlaylist_spec.2.2.2.2 addState pid1 idA 2 (by decide)
  exact h ⟨"p1", "L", ["a"]⟩ (by decide)

/-- toggleSongLike on an id absent from the catalog is a silent no-op. -/
theorem toggleSongLike_not_found (st : PlayerState) (sid : String)
    (h : st.songs.find? (fun s => s.id == sid) = none) :
    toggleSongLike st sid = st := by
  unfold toggleSongLike
  rw [h]

/-- toggleSongLike on a liked id removes every liked entry with that id
and persists. -/
theorem toggleSongLike_liked (st : PlayerState) (sid : String) (song : Song)
    (h : st.songs.find? (fun s => s.id == sid) = some song)
    (hany : st.likedSongs.any (fun s => s.id == sid) = true) :
    toggleSongLike st sid =
      saveData { st with likedSongs := st.likedSongs.filter (fun s => s.id != sid) } := by
  simp only [toggleSongLike, h, hany, if_true]

/-- toggleSongLike on an unliked id appends the catalog's song and
persists. -/
theorem toggleSongLike_not_liked (st : PlayerState) (sid : String) (song : Song)
    (h : st.songs.find? (fun s => s.id == sid) = some song)
    (hany : st.likedSongs.any (fun s => s.id == sid) = false) :
    toggleSongLike st sid =
      saveData { st with likedSongs := st.likedSongs ++ [song] } := by
  simp only [toggleSongLike, h, hany, Bool.false_eq_true, if_false]

/-- toggleSongLike never touches the catalog. -/
theorem toggleSongLike_songs (st : PlayerState) (sid : String) :
    (toggleSongLike st sid).songs = st.songs := by
  rcases hf : st.songs.find? (fun s => s.id == sid) with _ | song
  · rw [toggleSongLike_not_found st sid hf]
  · by_cases hany : st.likedSongs.any (fun s => s.id == sid) = true
    · rw [toggleSongLike_liked st sid song hf hany]; rfl
    · rw [toggleSongLike_not_liked st sid song hf (Bool.not_eq_true _ ▸ hany)]; rfl

/- ----------------------------------------------------------------------
Claim C10.
---------------------------------------------------------------------- -/

/-- C10: toggleSongLike is a silent no-op when the id is not in the
catalog; otherwise it removes the liked entries with that id if any is
present, else appends the catalog's song, and persists.  Toggling twice
restores the prior liked-set membership (by id) and leaves the surviving
elements (those with a different id) exactly as they were, in order. -/
theorem toggleLike_spec :
    (∀ st sid, st.songs.find? (fun s => s.id == sid) = none →
      toggleSongLike st sid = st) ∧
    (∀ st sid song, st.songs.find? (fun s => s.id == sid) = some song →
      st.likedSongs.any (fun s => s.id == sid) = true →
      (toggleSongLike st sid).likedSongs = st.likedSongs.filter (fun s => s.id != sid)) ∧
    (∀ st sid song, st.songs.find? (fun s => s.id == sid) = some song →
      st.likedSongs.any (fun s => s.id == sid) = false →
      (toggleSongLike st sid).likedSongs = st.likedSongs ++ [song]) ∧
    (∀ st sid song, st.songs.find? (fun s => s.id == sid) = some song →
      (toggleSongLike st sid).storedLiked = (toggleSongLike st sid).likedSongs) ∧
    (∀ st sid song, st.songs.find? (fun s => s.id == sid) = some song →
      ((∀ i, (∃ x ∈ (toggleSongLike (toggleSongLike st sid) sid).likedSongs, x.id = i) ↔
             (∃ x ∈ st.likedSongs, x.id = i)) ∧
       (toggleSongLike (toggleSongLike st sid) sid).likedSongs.filter (fun x => x.id != sid) =
         st.likedSongs.filter (fun x => x.id != sid))) := by
  have hsid : ∀ (st : PlayerState) (sid : String) (song : Song),
      st.songs.find? (fun s => s.id == sid) = some song → song.id = sid := by
    intro st sid song h
    have := List.find?_some h
    simpa [beq_iff_eq] using this
  refine ⟨fun st sid h => toggleSongLike_not_found st sid h, ?_, ?_, ?_, ?_⟩
  · intro st sid song h hany
    rw [toggleSongLike_liked st sid song h hany]; rfl
  · intro st sid song h hany
    rw [toggleSongLike_not_liked st sid song h hany]; rfl
  · intro st sid song h
    by_cases hany : st.likedSongs.any (fun s => s.id == sid) = true
    · rw [toggleSongLike_liked st sid song h hany]; rfl
    · rw [toggleSongLike_not_liked st sid song h (Bool.not_eq_true _ ▸ hany)]; rfl
  · intro st sid song h
    have hsong : song.id = sid := hsid st sid song h
    have hfind1 : (toggleSongLike st sid).songs.find? (fun s => s.id == sid) = some song := by
      rw [toggleSongLike_songs]
      exact h
    by_cases hany : st.likedSongs.any (fun s => s.id == sid) = true
    · -- initially liked: first toggle filters, second appends the catalog song
      have h1 : (toggleSongLike st sid).likedSongs =
          st.likedSongs.filter (fun s => s.id != sid) := by
        rw [toggleSongLike_liked st sid song h hany]; rfl
      have hany1 : (toggleSongLike st sid).likedSongs.any (fun s => s.id == sid) = false := by
        rw [h1, List.any_eq_false]
        intro x hx
        have := (List.mem_filter.mp hx).2
        simpa [bne_iff_ne, beq_iff_eq] using this
      have h2 : (toggleSongLike (toggleSongLike st sid) sid).likedSongs =
          st.likedSongs.filter (fun s => s.id != sid) ++ [song] := by
        rw [toggleSongLike_not_liked (toggleSongLike st sid) sid song hfind1 hany1, ← h1]
        rfl
      rw [h2]
      constructor
      · intro i
        constructor
        · rintro ⟨x, hx, hxi⟩
          rcases List.mem_append.mp hx with hxl | hxr
          · exact ⟨x, (List.mem_filter.mp hxl).1, hxi⟩
          · rw [List.mem_singleton.mp hxr] at hxi
            obtain ⟨y, hy, hyp⟩ := List.any_eq_true.mp hany
            refine ⟨y, hy, ?_⟩
            rw [beq_iff_eq] at hyp
            rw [hyp, ← hxi, hsong]
        · rintro ⟨x, hx, hxi⟩
          by_cases hxs : x.id = sid
          · refine ⟨song, List.mem_append_right _ (List.mem_singleton.mpr rfl), ?_⟩
            rw [hsong, ← hxs, hxi]
          · refine ⟨x, List.mem_append_left _ (List.mem_filter.mpr ⟨hx, ?_⟩), hxi⟩
            simpa [bne_iff_ne] using hxs
      · rw [List.filter_append]
        have hsongf : List.filter (fun x => x.id != sid) [song] = [] := by
          simp [List.filter, hsong]
        rw [hsongf, List.append_nil]
        apply List.filter_eq_self.mpr
        intro x hx
        exact (List.mem_filter.mp hx).2
    · -- initially not liked: first toggle appends, second filters it back out
      have hany' : st.likedSongs.any (fun s => s.id == sid) = false :=
        Bool.not_eq_true _ ▸ hany
      have h1 : (toggleSongLike st sid).likedSongs = st.likedSongs ++ [song] := by
        rw [toggleSongLike_not_liked st sid song h hany']; rfl
      have hany1 : (toggleSongLike st sid).likedSongs.any (fun s => s.id == sid) = true := by
        rw [h1]
        exact List.any_eq_true.mpr ⟨song,
          List.mem_append_right _ (List.mem_singleton.mpr rfl), beq_iff_eq.mpr hsong⟩
      have hclean : ∀ x ∈ st.likedSongs, (x.id != sid) = true := by
        intro x hx
        have := List.any_eq_false.mp hany' x hx
        simpa [bne_iff_ne, beq_iff_eq] using this
      have h2 : (toggleSongLike (toggleSongLike st sid) sid).likedSongs = st.likedSongs := by
        rw [toggleSongLike_liked (toggleSongLike st sid) sid song hfind1 hany1]
        show List.filter (fun s => s.id != sid) (toggleSongLike st sid).likedSongs =
          st.likedSongs
        rw [h1, List.filter_append]
        have hsongf : List.filter (fun s => s.id != sid) [song] = [] := by
          simp [List.filter, hsong]
        rw [hsongf, List.append_nil]
        exact List.filter_eq_self.mpr hclean
      rw [h2]
      exact ⟨fun i => Iff.rfl, rfl⟩

/-- C10 witness: in likeState (songA in the catalog, nothing liked)
double-toggling id a leaves the surviving liked entries unchanged. -/
theorem toggleLike_spec_witness :
    (toggleSongLike (toggleSongLike likeState idA) idA).likedSongs.filter
        (fun x => x.id != idA) =
      likeState.likedSongs.filter (fun x => x.id != idA) :=
  (toggleLike_spec.2.2.2.2 likeState idA songA (by decide)).2

/-- The decimal digit character determines its digit. -/
theorem digitChar_toNat (d : Nat) (h : d < 10) : (digitChar d).toNat = 48 + d := by
  have hv : Nat.isValidChar (48 + d) := Or.inl (by omega)
  simp only [digitChar, Char.ofNat, dif_pos hv, Char.ofNatAux, Char.toNat, UInt32.toNat]
  simp

/-- Mapping digitChar over lists of digits below 10 is injective. -/
theorem map_digitChar_inj : ∀ (l1 l2 : List Nat), (∀ d ∈ l1, d < 10) →
    (∀ d ∈ l2, d < 10) → l1.map digitChar = l2.map digitChar → l1 = l2
  | [], [], _, _, _ => rfl
  | [], _ :: _, _, _, h => by simp at h
  | _ :: _, [], _, _, h => by simp at h
  | a :: t1, b :: t2, h1, h2, h => by
    simp only [List.map_cons, List.cons.injEq] at h
    have ha := h1 a (List.mem_cons_self a t1)
    have hb := h2 b (List.mem_cons_self b t2)
    have hab : a = b := by
      have hc := congrArg Char.toNat h.1
      rw [digitChar_toNat a ha, digitChar_toNat b hb] at hc
      omega
    have ht := map_digitChar_inj t1 t2 (fun d hd => h1 d (List.mem_cons_of_mem _ hd))
      (fun d hd => h2 d (List.mem_cons_of_mem _ hd)) h.2
    rw [hab, ht]

/-- A positive integer's decimal string is never the string of zero. -/
theorem natToString_ne_zero (n : Nat) (hn : n ≠ 0) : natToString n ≠ natToString 0 := by
  intro h
  rw [natToString, if_neg hn, natToString, if_pos rfl] at h
  have hd : ((Nat.digits 10 n).map digitChar).reverse = ['0'] := by
    have := congrArg String.data h
    simpa using this
  have hd2 : (Nat.digits 10 n).map digitChar = ['0'] := by
    have := congrArg List.reverse hd
    simpa using this
  have hlen : (Nat.digits 10 n).length = 1 := by
    have := congrArg List.length hd2
    simpa using this
  obtain ⟨d, hdig⟩ := List.length_eq_one.mp hlen
  rw [hdig] at hd2
  simp only [List.map_cons, List.map_nil, List.cons.injEq, and_true] at hd2
  have hd10 : d < 10 :=
    Nat.digits_lt_base (by norm_num) (by rw [hdig]; exact List.mem_singleton.mpr rfl)
  have hdz : d = 0 := by
    have hc := congrArg Char.toNat hd2
    rw [digitChar_toNat d hd10] at hc
    have h48 : ('0').toNat = 48 := by decide
    omega
  subst hdz
  have hof := Nat.ofDigits_digits 10 n
  rw [hdig] at hof
  simp [Nat.ofDigits] at hof
  exact hn hof.symm

/-- Model fidelity: the decimal representation is injective, so distinct
Date.now() values give distinct playlist ids. -/
theorem natToString_injective : ∀ m n : Nat, natToString m = natToString n → m = n := by
  intro m n h
  by_cases hm : m = 0 <;> by_cases hn : n = 0
  · rw [hm, hn]
  · exact absurd (hm ▸ h.symm) (natToString_ne_zero n hn)
  · exact absurd (hn ▸ h) (natToString_ne_zero m hm)
  · rw [natToString, if_neg hm, natToString, if_neg hn] at h
    have hd : ((Nat.digits 10 m).map digitChar).reverse =
        ((Nat.digits 10 n).map digitChar).reverse := by
      have := congrArg String.data h
      simpa using this
    have hrev : (Nat.digits 10 m).map digitChar = (Nat.digits 10 n).map digitChar := by
      have := congrArg List.reverse hd
      simpa using this
    have hdm := map_digitChar_inj _ _
      (fun d hd => Nat.digits_lt_base (by norm_num) hd)
      (fun d hd => Nat.digits_lt_base (by norm_num) hd) hrev
    exact Nat.digits_inj_iff.mp hdm

/-- Each createPlaylist call either leaves the state unchanged (validation
failure) or appends exactly the playlist with id natToString now. -/
theorem createPlaylist_cases (st : PlayerState) (raw : String) (now : Nat) :
    (createPlaylist st raw now).1 = st ∨
    (createPlaylist st raw now).1.playlists =
      st.playlists ++ [⟨natToString now, jsTrim raw, []⟩] := by
  unfold createPlaylist
  by_cases h1 : jsTrim raw = ""
  · rw [if_pos h1]; exact Or.inl rfl
  · rw [if_neg h1]
    by_cases h2 : st.playlists.any
        (fun p => jsToLower p.name == jsToLower (jsTrim raw)) = true
    · rw [h2]
      exact Or.inl rfl
    · rw [Bool.not_eq_true] at h2
      rw [h2]
      exact Or.inr rfl

/- ----------------------------------------------------------------------
Claim C8.
---------------------------------------------------------------------- -/

/-- C8 counterexample: two successful createPlaylist calls in the same
Date.now() millisecond (here 5) store two playlists with the SAME id, so
ids are not pairwise distinct after every sequence of successful calls. -/
theorem playlist_ids_same_timestamp_cex :
    (createPlaylist initState nameA 5).2 = none ∧
    (createPlaylist (createPlaylist initState nameA 5).1 nameB 5).2 = none ∧
    (createPlaylist (createPlaylist initState nameA 5).1 nameB 5).1.playlists.map
      Playlist.id = [natToString 5, natToString 5] ∧
    ¬ ((createPlaylist (createPlaylist initState nameA 5).1 nameB 5).1.playlists.map
        Playlist.id).Nodup := by
  refine ⟨rfl, rfl, rfl, ?_⟩
  intro hnd
  have : natToString 5 ∉ [natToString 5] := (List.nodup_cons.mp hnd).1
  exact this (List.mem_singleton.mpr rfl)

/-- C8 amended: playlist ids are the decimal strings of their creation
timestamps; since that representation is injective, any sequence of
createPlaylist calls whose Date.now() values are pairwise distinct (and
distinct from all existing ids) keeps the stored ids pairwise distinct.
Same-millisecond creations are the only way to collide. -/
theorem playlist_ids_unique_amended :
    (∀ m n : Nat, natToString m = natToString n → m = n) ∧
    (∀ st calls,
      (st.playlists.map Playlist.id).Nodup →
      (∀ p ∈ st.playlists, ∀ t ∈ calls.map Prod.snd, p.id ≠ natToString t) →
      (calls.map Prod.snd).Nodup →
      ((runCreates st calls).playlists.map Playlist.id).Nodup) := by
  refine ⟨natToString_injective, ?_⟩
  intro st calls
  induction calls generalizing st with
  | nil =>
    intro hnd _ _
    simpa [runCreates] using hnd
  | cons c rest ih =>
    intro hnd hfresh hts
    have hts' : (c.2 :: rest.map Prod.snd).Nodup := by simpa using hts
    rw [runCreates]
    rcases createPlaylist_cases st c.1 c.2 with hcase | hcase
    · rw [hcase]
      exact ih st hnd
        (fun p hp t ht => hfresh p hp t (by simp only [List.map_cons]; exact List.mem_cons_of_mem _ ht))
        (List.nodup_cons.mp hts').2
    · apply ih (createPlaylist st c.1 c.2).1
      · rw [hcase, List.map_append]
        simp only [List.map_cons, List.map_nil]
        rw [List.nodup_append]
        refine ⟨hnd, List.nodup_singleton _, ?_⟩
        intro x hx
        simp only [List.mem_singleton]
        obtain ⟨p, hp, hpid⟩ := List.mem_map.mp hx
        intro hxe
        exact hfresh p hp c.2 (by simp only [List.map_cons]; exact List.mem_cons_self _ _)
          (by rw [hpid]; exact hxe)
      · intro p hp t ht
        rw [hcase] at hp
        rcases List.mem_append.mp hp with hold | hnew
        · exact hfresh p hold t (by simp only [List.map_cons]; exact List.mem_cons_of_mem _ ht)
        · have hpn : p = ⟨natToString c.2, jsTrim c.1, []⟩ := List.mem_singleton.mp hnew
          rw [hpn]
          intro hcontra
          have hct := natToString_injective c.2 t hcontra
          have hniv : c.2 ∉ rest.map Prod.snd := (List.nodup_cons.mp hts').1
          exact hniv (hct ▸ ht)
      · exact (List.nodup_cons.mp hts').2

/-- C8 amended witness: creating alpha at time 1 and beta at time 2 from
the empty player yields pairwise-distinct stored playlist ids. -/
theorem playlist_ids_unique_amended_witness :
    ((runCreates initState [(nameA, 1), (nameB, 2)]).playlists.map Playlist.id).Nodup :=
  playlist_ids_unique_amended.2 initState [(nameA, 1), (nameB, 2)]
    (by decide) (by decide) (by decide)

end Groove
